import Mathlib

/-!
Shallow embedding of the run engine in cmd/root.go (the variant with
completion polling): node discovery, rank assignment, environment
composition, concurrent command dispatch, status polling and result
aggregation.  External collaborators (the EC2 and SSM clients) are
modelled as oracles: the EC2 DescribeInstances response is an input, and
the SSM client is a record of a SendCommand function plus, per
invocation, the sequence of GetCommandInvocation responses the service
would return.
-/

/-- Mirrors `aws.InstanceInfo` as used by cmd/root.go: instance id, private
and public IP, and the assigned rank (initialised to -1 by discovery). -/
structure InstanceInfo where
  instanceID : String
  privateIP : String
  publicIP : String
  instanceRank : Int
deriving Repr, DecidableEq

/-- One instance record of the EC2 DescribeInstances response; the SDK
represents absent fields as nil pointers, modelled as `none`. -/
structure RawInstance where
  instanceId : Option String
  privateIpAddress : Option String
  publicIpAddress : Option String
deriving Repr, DecidableEq

/-- `aws.ToString`: dereference an SDK string pointer, nil becoming "". -/
def awsToString : Option String → String
  | some s => s
  | none => ""

/-- The body of the inner discovery loop: keep an instance only when both
its InstanceId and PrivateIpAddress pointers are non-nil. -/
def convertRaw (inst : RawInstance) : Option InstanceInfo :=
  match inst.instanceId, inst.privateIpAddress with
  | some id, some priv =>
      some { instanceID := id, privateIP := priv,
             publicIP := awsToString inst.publicIpAddress, instanceRank := -1 }
  | _, _ => none

/-- One step of the inner discovery loop: append the instance when kept. -/
def collectStep (acc : List InstanceInfo) (inst : RawInstance) : List InstanceInfo :=
  match convertRaw inst with
  | some info => acc ++ [info]
  | none => acc

/-- The nested reservation/instance loops of `discoverInstances`,
appending each kept instance to the accumulator in response order. -/
def collectInstances (reservations : List (List RawInstance)) : List InstanceInfo :=
  reservations.foldl (fun acc res => res.foldl collectStep acc) []

/-- Spec-side restatement of the candidate order: reservations flattened
in response order, each filtered by the presence check.  Used to compare
with `collectInstances`. -/
def orderedCandidates : List (List RawInstance) → List InstanceInfo
  | [] => []
  | res :: rest => res.filterMap convertRaw ++ orderedCandidates rest

/-- `discoverInstances`: client creation and the DescribeInstances call are
oracles; failures are wrapped with the source's message prefixes. -/
def discoverInstances (ec2ClientRes : Except String Unit)
    (describeRes : Except String (List (List RawInstance))) :
    Except String (List InstanceInfo) :=
  match ec2ClientRes with
  | Except.error e => Except.error ("failed to create EC2 client: " ++ e)
  | Except.ok _ =>
    match describeRes with
    | Except.error e => Except.error ("failed to describe instances: " ++ e)
    | Except.ok reservations => Except.ok (collectInstances reservations)

/-- The loop `for i := range instances { instances[i].InstanceRank = i }`,
with `k` the index of the first pending element. -/
def assignRanksFrom (k : Nat) : List InstanceInfo → List InstanceInfo
  | [] => []
  | inst :: rest =>
      { inst with instanceRank := (k : Int) } :: assignRanksFrom (k + 1) rest

/-- `assignRanks`: give the i-th instance rank i. -/
def assignRanks (instances : List InstanceInfo) : List InstanceInfo :=
  assignRanksFrom 0 instances

/-- Default of the `--num-instances` flag declared in `init`. -/
def defaultNumInstances : Int := 1

/-- Address selection in the env-var loop of `executeProgram`: start from
the peer's private IP, fall back to its public IP when that is empty, and
use the wildcard address when the peer is the instance being configured. -/
def selectAddress (peer localInst : InstanceInfo) : String :=
  let address := peer.privateIP
  let address := if address = "" then peer.publicIP else address
  if peer.instanceID = localInst.instanceID then "0.0.0.0" else address

/-- One `export MPI_ADDRESS_<rank>="<addr>:50051"` line. -/
def addressLine (peer localInst : InstanceInfo) : String :=
  "export MPI_ADDRESS_" ++ toString peer.instanceRank ++ "=\""
    ++ selectAddress peer localInst ++ ":50051\""

/-- The env-var list built per node: its rank, the fleet size, then one
address line per fleet member. -/
def buildEnvVars (instances : List InstanceInfo) (localInst : InstanceInfo) :
    List String :=
  ("export MPI_RANK=" ++ toString localInst.instanceRank)
    :: ("export MPI_SIZE=" ++ toString instances.length)
    :: instances.map (fun peer => addressLine peer localInst)

/-- The shell script sent to one node. -/
def buildScript (instances : List InstanceInfo) (localInst : InstanceInfo)
    (executablePath : String) : String :=
  "#!/bin/bash\n" ++ String.intercalate "\n" (buildEnvVars instances localInst)
    ++ "\n" ++ executablePath ++ " > output.txt 2>&1\n"

/-- The `ssm.SendCommandInput` fields set by `executeProgram`. -/
structure SendCommandInput where
  documentName : String
  commands : List String
  instanceIds : List String
  timeoutSeconds : Int
deriving Repr, DecidableEq

/-- The submission request built for one node. -/
def mkSendCommandInput (instances : List InstanceInfo) (inst : InstanceInfo)
    (executablePath : String) : SendCommandInput :=
  { documentName := "AWS-RunShellScript"
    commands := [buildScript instances inst executablePath]
    instanceIds := [inst.instanceID]
    timeoutSeconds := 600 }

/-- The fields of a GetCommandInvocation response read by the poller. -/
structure InvocationOutput where
  status : String
  standardOutputContent : Option String
  standardErrorContent : Option String
deriving Repr, DecidableEq

/-- One GetCommandInvocation result: a query error or an output record. -/
inductive QueryResponse where
  | err (msg : String)
  | ok (out : InvocationOutput)
deriving Repr, DecidableEq

/-- Does `pat` occur at the head of `s`? -/
def charsLead : List Char → List Char → Bool
  | [], _ => true
  | _ :: _, [] => false
  | a :: pat, b :: s => a == b && charsLead pat s

/-- Does `pat` occur anywhere in `s`?  (`strings.Contains`.) -/
def charsContain (pat : List Char) : List Char → Bool
  | [] => charsLead pat []
  | b :: rest => charsLead pat (b :: rest) || charsContain pat rest

/-- `strings.Contains` on strings. -/
def strContains (s pat : String) : Bool :=
  charsContain pat.data s.data

/-- The throttling test of `getCommandOutput`:
`strings.Contains(err.Error(), "ThrottlingException")`. -/
def isThrottling (msg : String) : Bool :=
  strContains msg "ThrottlingException"

/-- The polling loop of `getCommandOutput`, run against the (finite)
sequence of responses the service returns for this invocation.  `none`
means the loop was still retrying when the sequence ran out (the node is
still in flight); `some` is the terminal result: the captured stdout on
Success, otherwise the error the Go function returns. -/
def getCommandOutput : List QueryResponse → Option (Except String String)
  | [] => none
  | QueryResponse.err msg :: rest =>
      if isThrottling msg then getCommandOutput rest
      else some (Except.error ("failed to get command invocation: " ++ msg))
  | QueryResponse.ok out :: rest =>
      if out.status == "InProgress" || out.status == "Pending" then
        getCommandOutput rest
      else if out.status == "Success" then
        some (Except.ok (awsToString out.standardOutputContent))
      else
        some (Except.error ("command failed with status " ++ out.status ++ ": "
          ++ awsToString out.standardErrorContent))

/-- A response the loop skips: a throttling error or a non-terminal status. -/
def skippable : QueryResponse → Bool
  | QueryResponse.err msg => isThrottling msg
  | QueryResponse.ok out => out.status == "InProgress" || out.status == "Pending"

/-- The outcome the loop produces at its first non-skipped response. -/
def terminalResult : QueryResponse → Except String String
  | QueryResponse.err msg =>
      Except.error ("failed to get command invocation: " ++ msg)
  | QueryResponse.ok out =>
      if out.status == "Success" then
        Except.ok (awsToString out.standardOutputContent)
      else
        Except.error ("command failed with status " ++ out.status ++ ": "
          ++ awsToString out.standardErrorContent)

/-- The SSM client as an oracle: the SendCommand outcome per request, and
per (commandId, instanceId) the GetCommandInvocation response sequence. -/
structure SSMClient where
  send : SendCommandInput → Except String String
  invocationResponses : String → String → List QueryResponse

/-- The shared state of the dispatch fan-out after all goroutines have
finished: the commandIDs map, the error flag, and the submission requests
that were issued (one SendCommand call per node). -/
structure DispatchState where
  commandIDs : List (String × String)
  errorsOccurred : Bool
  requests : List SendCommandInput
deriving Repr, DecidableEq

/-- The dispatch fan-out over the pending nodes: each node's goroutine
builds its request from the full fleet, calls SendCommand, and either
records the command id under the node's instance id or sets the shared
error flag.  Completion order is immaterial to the final state; the fleet
order is used. -/
def dispatchGo (send : SendCommandInput → Except String String)
    (fleet : List InstanceInfo) (executablePath : String) :
    List InstanceInfo → DispatchState
  | [] => { commandIDs := [], errorsOccurred := false, requests := [] }
  | inst :: rest =>
    let input := mkSendCommandInput fleet inst executablePath
    let st := dispatchGo send fleet executablePath rest
    match send input with
    | Except.error _ =>
        { commandIDs := st.commandIDs, errorsOccurred := true,
          requests := input :: st.requests }
    | Except.ok cid =>
        { commandIDs := (inst.instanceID, cid) :: st.commandIDs,
          errorsOccurred := st.errorsOccurred,
          requests := input :: st.requests }

/-- The whole dispatch phase of `executeProgram` (up to `wg.Wait()`). -/
def dispatchAll (send : SendCommandInput → Except String String)
    (instances : List InstanceInfo) (executablePath : String) : DispatchState :=
  dispatchGo send instances executablePath instances

/-- The leader lookup: first instance with rank 0 (loop with `break`). -/
def findLeader (instances : List InstanceInfo) : Option InstanceInfo :=
  instances.find? (fun i => i.instanceRank == 0)

/-- What `executeProgram` does after the dispatch barrier: fail on the
error flag, else poll rank 0 (when present) and surface its output.
`none` means the poll loop never reached a terminal response. -/
def executeAfterDispatch (client : SSMClient) (instances : List InstanceInfo)
    (st : DispatchState) : Option (Except String (Option String)) :=
  if st.errorsOccurred then
    some (Except.error "errors occurred during program execution")
  else
    match findLeader instances with
    | none => some (Except.ok none)
    | some leader =>
      match getCommandOutput (client.invocationResponses
          ((List.lookup leader.instanceID st.commandIDs).getD "")
          leader.instanceID) with
      | none => none
      | some (Except.error msg) =>
          some (Except.error ("failed to get output from rank 0: " ++ msg))
      | some (Except.ok out) => some (Except.ok (some out))

/-- `executeProgram`: create the SSM client, fan out dispatch, then poll
the leader.  Besides the result (error, or success with the leader output
that was printed) it returns the submission requests that were issued. -/
def executeProgram (clientRes : Except String SSMClient)
    (instances : List InstanceInfo) (executablePath : String) :
    Option (Except String (Option String)) × List SendCommandInput :=
  match clientRes with
  | Except.error msg =>
      (some (Except.error ("failed to create SSM client: " ++ msg)), [])
  | Except.ok client =>
    let st := dispatchAll client.send instances executablePath
    (executeAfterDispatch client instances st, st.requests)

/-- The observable end state of `runAWSMPIRun`: which abort path was
taken (each `os.Exit(1)` call and the slice panic), or success. -/
inductive RunResult where
  | discoveryError (msg : String)
  | insufficientCapacity (requested available : Int)
  | slicePanic
  | execError (msg : String)
  | success (leaderOutput : Option String)
deriving Repr, DecidableEq

/-- `runAWSMPIRun`: discovery, the capacity check, selection of the first
`numInstances` candidates (Go panics when the slice bound is negative),
rank assignment, then `executeProgram`.  Returns the end state together
with the submission requests issued; `none` means the run hung polling. -/
def runAWSMPIRun (ssmClientRes : Except String SSMClient)
    (discovery : Except String (List InstanceInfo)) (numInstances : Int)
    (executablePath : String) : Option (RunResult × List SendCommandInput) :=
  match discovery with
  | Except.error msg => some (RunResult.discoveryError msg, [])
  | Except.ok instances =>
    if (instances.length : Int) < numInstances then
      some (RunResult.insufficientCapacity numInstances (instances.length : Int), [])
    else if numInstances < 0 then
      some (RunResult.slicePanic, [])
    else
      let selected := assignRanks (instances.take numInstances.toNat)
      match executeProgram ssmClientRes selected executablePath with
      | (none, _) => none
      | (some (Except.error msg), reqs) => some (RunResult.execError msg, reqs)
      | (some (Except.ok lo), reqs) => some (RunResult.success lo, reqs)

/-! Concrete fixtures used by witnesses and counterexamples. -/

/-- A two-node ranked fleet: leader. -/
def nodeA : InstanceInfo :=
  { instanceID := "i-a", privateIP := "10.0.0.1", publicIP := "", instanceRank := 0 }

/-- A two-node ranked fleet: second node. -/
def nodeB : InstanceInfo :=
  { instanceID := "i-b", privateIP := "10.0.0.2", publicIP := "", instanceRank := 1 }

/-- A third node, for three-node fixtures. -/
def nodeC : InstanceInfo :=
  { instanceID := "i-c", privateIP := "10.0.0.3", publicIP := "", instanceRank := -1 }

/-- An SSM client whose submissions all succeed; node A's invocation
reaches Success with stdout "out", node B's ends Failed with stderr
"boom". -/
def clientC1 : SSMClient :=
  { send := fun input => Except.ok ("cid-" ++ (input.instanceIds.headD ""))
    invocationResponses := fun _ instanceId =>
      if instanceId == "i-a" then
        [QueryResponse.ok { status := "Success",
                            standardOutputContent := some "out",
                            standardErrorContent := none }]
      else
        [QueryResponse.ok { status := "Failed",
                            standardOutputContent := none,
                            standardErrorContent := some "boom" }] }

/-- An SSM client for which submission to node B fails while every other
submission succeeds and every invocation would poll to Success. -/
def clientC2 : SSMClient :=
  { send := fun input =>
      if input.instanceIds == ["i-b"] then Except.error "SubmissionError"
      else Except.ok "cid-a"
    invocationResponses := fun _ _ =>
      [QueryResponse.ok { status := "Success",
                          standardOutputContent := some "hi",
                          standardErrorContent := none }] }

/-- A trivial SSM client: every submission succeeds, no invocation ever
returns a response. -/
def trivClient : SSMClient :=
  { send := fun _ => Except.ok "cid"
    invocationResponses := fun _ _ => [] }

/-- A raw discovery entry with all fields present. -/
def rawA : RawInstance :=
  { instanceId := some "i-a", privateIpAddress := some "10.0.0.1",
    publicIpAddress := none }

/-- A second raw discovery entry with all fields present. -/
def rawB : RawInstance :=
  { instanceId := some "i-b", privateIpAddress := some "10.0.0.2",
    publicIpAddress := none }

/-- A raw discovery entry whose private address is present but empty. -/
def rawEmptyPriv : RawInstance :=
  { instanceId := some "i-a", privateIpAddress := some "",
    publicIpAddress := some "3.3.3.3" }

/-- An unranked node with a private address, for rank-assignment and
environment-composition witnesses. -/
def wNode0 : InstanceInfo :=
  { instanceID := "i-a", privateIP := "10.0.0.1", publicIP := "", instanceRank := -1 }

/-- An unranked node whose private address is empty and whose public
address is routable. -/
def wNode1 : InstanceInfo :=
  { instanceID := "i-b", privateIP := "", publicIP := "3.3.3.2", instanceRank := -1 }

/-- `wNode1` after receiving rank 1. -/
def wNode1R : InstanceInfo :=
  { instanceID := "i-b", privateIP := "", publicIP := "3.3.3.2", instanceRank := 1 }

/-- The commandIDs entry one node's goroutine contributes. -/
def sendRecord (send : SendCommandInput → Except String String)
    (fleet : List InstanceInfo) (p : String) (i : InstanceInfo) :
    Option (String × String) :=
  match send (mkSendCommandInput fleet i p) with
  | Except.ok cid => some (i.instanceID, cid)
  | Except.error _ => none

/-! Helper lemmas about rank assignment. -/

theorem assignRanksFrom_length (k : Nat) (xs : List InstanceInfo) :
    (assignRanksFrom k xs).length = xs.length := by
  induction xs generalizing k with
  | nil => rfl
  | cons x xs ih => simp [assignRanksFrom, ih]

theorem assignRanksFrom_getElem? (k i : Nat) (xs : List InstanceInfo) :
    (assignRanksFrom k xs)[i]? =
      xs[i]?.map (fun x => { x with instanceRank := ((k + i : Nat) : Int) }) := by
  induction xs generalizing k i with
  | nil => simp [assignRanksFrom]
  | cons x xs ih =>
    cases i with
    | zero => simp [assignRanksFrom]
    | succ n =>
      have h := ih (k + 1) n
      have harith : (k + 1) + n = k + (n + 1) := by omega
      simpa [assignRanksFrom, harith] using h

theorem assignRanks_getElem? (i : Nat) (xs : List InstanceInfo) :
    (assignRanks xs)[i]? =
      xs[i]?.map (fun x => { x with instanceRank := (i : Int) }) := by
  simpa [assignRanks] using assignRanksFrom_getElem? 0 i xs

theorem assignRanks_length (xs : List InstanceInfo) :
    (assignRanks xs).length = xs.length :=
  assignRanksFrom_length 0 xs

/-! Helper lemmas about discovery. -/

theorem collect_inner (res : List RawInstance) (acc : List InstanceInfo) :
    res.foldl collectStep acc = acc ++ res.filterMap convertRaw := by
  induction res generalizing acc with
  | nil => simp
  | cons i res ih =>
    cases h : convertRaw i <;>
      simp [collectStep, List.filterMap_cons, h, ih]

theorem collect_outer (l : List (List RawInstance)) (acc : List InstanceInfo) :
    l.foldl (fun acc res => res.foldl collectStep acc) acc
      = acc ++ collectInstances l := by
  induction l generalizing acc with
  | nil => simp [collectInstances]
  | cons r l ih =>
    show (l.foldl (fun acc res => res.foldl collectStep acc) (r.foldl collectStep acc)) = _
    rw [ih, collect_inner]
    show _ = acc ++ (l.foldl (fun acc res => res.foldl collectStep acc) (r.foldl collectStep []))
    rw [ih, collect_inner]
    simp

theorem collectInstances_cons (res : List RawInstance)
    (rest : List (List RawInstance)) :
    collectInstances (res :: rest)
      = res.filterMap convertRaw ++ collectInstances rest := by
  show (rest.foldl (fun acc res => res.foldl collectStep acc) (res.foldl collectStep [])) = _
  rw [collect_outer, collect_inner]
  simp

theorem convertRaw_eq_some {raw : RawInstance} {node : InstanceInfo}
    (h : convertRaw raw = some node) :
    raw.instanceId = some node.instanceID
    ∧ raw.privateIpAddress = some node.privateIP
    ∧ node.publicIP = awsToString raw.publicIpAddress
    ∧ node.instanceRank = -1 := by
  cases hid : raw.instanceId with
  | none => simp [convertRaw, hid] at h
  | some id =>
    cases hpriv : raw.privateIpAddress with
    | none => simp [convertRaw, hid, hpriv] at h
    | some priv =>
      simp only [convertRaw, hid, hpriv, Option.some.injEq] at h
      subst h
      simp

theorem collect_mem_fields {rs : List (List RawInstance)} {node : InstanceInfo}
    (h : node ∈ collectInstances rs) :
    ∃ res ∈ rs, ∃ raw ∈ res,
      raw.instanceId = some node.instanceID
      ∧ raw.privateIpAddress = some node.privateIP
      ∧ node.publicIP = awsToString raw.publicIpAddress
      ∧ node.instanceRank = -1 := by
  induction rs with
  | nil => simp [collectInstances] at h
  | cons res rest ih =>
    rw [collectInstances_cons, List.mem_append] at h
    cases h with
    | inl h =>
      rcases List.mem_filterMap.mp h with ⟨raw, hraw, hconv⟩
      exact ⟨res, List.mem_cons_self _ _, raw, hraw, convertRaw_eq_some hconv⟩
    | inr h =>
      rcases ih h with ⟨r, hr, raw, hraw, hfields⟩
      exact ⟨r, List.mem_cons_of_mem _ hr, raw, hraw, hfields⟩

/-- C5 (confirmed): for every N >= 1 and candidate list of length >= N,
selection takes exactly the first N candidates and rank assignment gives
the i-th of them rank i, so the assigned ranks are exactly 0..N-1 in
order; the mapping is a pure function of the candidate ordering. -/
theorem c5_rank_assignment (xs : List InstanceInfo) (n : Nat)
    (h1 : 1 ≤ n) (h2 : n ≤ xs.length) :
    (assignRanks (xs.take n)).length = n
    ∧ (∀ i x, i < n → xs[i]? = some x →
        (assignRanks (xs.take n))[i]? = some { x with instanceRank := (i : Int) })
    ∧ (assignRanks (xs.take n)).map (fun x => x.instanceRank)
        = (List.range n).map (fun (i : Nat) => (i : Int)) := by
  have hlen : (assignRanks (xs.take n)).length = n := by
    rw [assignRanks_length, List.length_take]
    omega
  refine ⟨hlen, ?_, ?_⟩
  · intro i x hi hx
    rw [assignRanks_getElem?, List.getElem?_take_of_lt hi, hx, Option.map_some']
  · apply List.ext_getElem?
    intro i
    rw [List.getElem?_map, List.getElem?_map, assignRanks_getElem?]
    by_cases hi : i < n
    · cases hx : xs[i]? with
      | none =>
        have := List.getElem?_eq_none_iff.mp hx
        omega
      | some x =>
        rw [List.getElem?_take_of_lt hi, hx, List.getElem?_range hi]
        rfl
    · rw [List.getElem?_take_eq_none (by omega),
        List.getElem?_eq_none (by rw [List.length_range]; omega)]
      rfl

/-- Witness for C5 at a concrete three-candidate list with N = 2: the
assigned rank list is [0, 1]. -/
theorem c5_witness :
    (assignRanks (List.take 2 [wNode0, wNode1, nodeC])).map
        (fun x => x.instanceRank) = [(0 : Int), 1] := by
  have h := (c5_rank_assignment [wNode0, wNode1, nodeC] 2 (by decide) (by decide)).2.2
  exact h.trans (by decide)

/-- C6 (confirmed): when discovery succeeds but returns fewer nodes than
the requested fleet size, the run stops with the insufficient-capacity
outcome and the list of issued submission requests is empty: no dispatch
(and hence no partial run) happens. -/
theorem c6_insufficient_capacity (ssmClientRes : Except String SSMClient)
    (xs : List InstanceInfo) (n : Int) (p : String)
    (h : (xs.length : Int) < n) :
    runAWSMPIRun ssmClientRes (Except.ok xs) n p
      = some (RunResult.insufficientCapacity n (xs.length : Int), []) := by
  simp [runAWSMPIRun, h]

/-- Witness for C6: requested size 5, discovery returned 3 running nodes;
the run aborts with InsufficientCapacity and no submission was issued. -/
theorem c6_witness :
    runAWSMPIRun (Except.ok trivClient) (Except.ok [nodeA, nodeB, nodeC]) 5 "prog"
      = some (RunResult.insufficientCapacity 5 3, []) :=
  c6_insufficient_capacity (Except.ok trivClient) [nodeA, nodeB, nodeC] 5 "prog"
    (by decide)

/-- C8 (corrected): counterexample to "same set of running nodes implies
identical candidate list" — two DescribeInstances responses listing the
same two nodes in opposite orders produce permuted but different
candidate lists, because discovery applies no canonical ordering. -/
theorem c8_counterexample :
    (collectInstances [[rawA, rawB]]).Perm (collectInstances [[rawB, rawA]])
    ∧ collectInstances [[rawA, rawB]] ≠ collectInstances [[rawB, rawA]] := by
  constructor
  · decide
  · decide

/-- C8 (corrected, amended): discovery is a deterministic pure function of
the provider response and preserves the response's own order — the
candidate list is exactly the reservations flattened in response order
with entries missing an id or private address dropped — but no lexical
(or other canonical) reordering is applied. -/
theorem c8_discovery_order (rs : List (List RawInstance)) :
    discoverInstances (Except.ok ()) (Except.ok rs)
      = Except.ok (orderedCandidates rs) := by
  show Except.ok (collectInstances rs) = _
  induction rs with
  | nil => rfl
  | cons res rest ih =>
    rw [collectInstances_cons, orderedCandidates]
    injection ih with ih
    rw [ih]

/-- C9 (corrected): counterexample to "the run never proceeds with a zero
or negative requested size" — with size 0 the run proceeds past every
check and reports success on an empty fleet, and with size -1 it passes
the capacity check and reaches the slicing step, which panics. -/
theorem c9_counterexample :
    runAWSMPIRun (Except.ok trivClient) (Except.ok []) 0 "prog"
      = some (RunResult.success none, [])
    ∧ runAWSMPIRun (Except.ok trivClient) (Except.ok [nodeA]) (-1) "prog"
      = some (RunResult.slicePanic, []) :=
  ⟨rfl, rfl⟩

/-- C9 (corrected, amended): the fleet-size flag defaults to 1 but is
never validated: the capacity check can never trip for a non-positive
requested size, a run requested with size 0 completes successfully on an
empty fleet without issuing any submission, and a negative size passes
the capacity check and panics at the candidate-list slice. -/
theorem c9_amended :
    defaultNumInstances = 1
    ∧ (∀ (xs : List InstanceInfo) (n : Int), n ≤ 0 → ¬ ((xs.length : Int) < n))
    ∧ (∀ (client : SSMClient) (xs : List InstanceInfo) (p : String),
        runAWSMPIRun (Except.ok client) (Except.ok xs) 0 p
          = some (RunResult.success none, []))
    ∧ (∀ (ssmClientRes : Except String SSMClient) (xs : List InstanceInfo)
        (p : String) (n : Int), n < 0 →
        runAWSMPIRun ssmClientRes (Except.ok xs) n p
          = some (RunResult.slicePanic, [])) := by
  refine ⟨rfl, ?_, ?_, ?_⟩
  · intro xs n hn
    have := Int.natCast_nonneg xs.length
    omega
  · intro client xs p
    have h0 : ¬ ((xs.length : Int) < 0) := by
      have := Int.natCast_nonneg xs.length
      omega
    simp only [runAWSMPIRun, h0, if_false]
    norm_num
    rfl
  · intro cr xs p n hn
    have h0 : ¬ ((xs.length : Int) < n) := by
      have := Int.natCast_nonneg xs.length
      omega
    simp only [runAWSMPIRun, h0, if_false, hn, if_true]

/-- Witness for C9 amended: a concrete negative size (-1) passes the
capacity check against a one-node inventory and the run panics slicing. -/
theorem c9_witness :
    runAWSMPIRun (Except.ok trivClient) (Except.ok [nodeB]) (-1) "prog"
      = some (RunResult.slicePanic, []) :=
  c9_amended.2.2.2 (Except.ok trivClient) [nodeB] "prog" (-1) (by decide)

/-- C10 (corrected): counterexample to "every discovered node has a
non-empty private address, so the public fall-back is never taken" — a
provider entry whose private-address field is present but empty survives
the nil-pointer filter, and the environment composer then takes the
public fall-back for that node. -/
theorem c10_counterexample :
    collectInstances [[rawEmptyPriv]]
      = [{ instanceID := "i-a", privateIP := "", publicIP := "3.3.3.3",
           instanceRank := -1 }]
    ∧ selectAddress
        { instanceID := "i-a", privateIP := "", publicIP := "3.3.3.3",
          instanceRank := -1 } nodeB
      = "3.3.3.3" :=
  ⟨rfl, rfl⟩

/-- C10 (corrected, amended): every node returned by discovery has both
fields PRESENT (entries with a nil id or nil private address are silently
skipped), its public address dereferenced with nil as "", and rank -1;
presence does not imply non-emptiness, but whenever the provider response
contains no present-but-empty private address, every discovered node has
a non-empty private address and the composer never takes the public
fall-back for it (its entry is the private address, or the wildcard on
the node's own row). -/
theorem c10_discovery_fields (rs : List (List RawInstance)) :
    (∀ node ∈ collectInstances rs, ∃ res ∈ rs, ∃ raw ∈ res,
        raw.instanceId = some node.instanceID
        ∧ raw.privateIpAddress = some node.privateIP
        ∧ node.publicIP = awsToString raw.publicIpAddress
        ∧ node.instanceRank = -1)
    ∧ ((∀ res ∈ rs, ∀ raw ∈ res, raw.privateIpAddress ≠ some "") →
        ∀ node ∈ collectInstances rs, node.privateIP ≠ ""
          ∧ ∀ localInst : InstanceInfo, node.instanceID ≠ localInst.instanceID →
              selectAddress node localInst = node.privateIP) := by
  constructor
  · intro node h
    exact collect_mem_fields h
  · intro hne node h
    rcases collect_mem_fields h with ⟨res, hres, raw, hraw, hid, hpriv, _⟩
    have hprivne : node.privateIP ≠ "" := by
      intro hcontra
      exact hne res hres raw hraw (hcontra ▸ hpriv)
    refine ⟨hprivne, ?_⟩
    intro localInst hidne
    simp [selectAddress, hprivne, hidne]

/-- Witness for C10 amended: in a response with a single fully-populated
entry, the discovered node's private address is non-empty and is the
address another node's environment entry uses for it. -/
theorem c10_witness :
    selectAddress
      { instanceID := "i-a", privateIP := "10.0.0.1", publicIP := "",
        instanceRank := -1 } nodeB
      = "10.0.0.1" := by
  have h := (c10_discovery_fields [[rawA]]).2 (by decide)
    { instanceID := "i-a", privateIP := "10.0.0.1", publicIP := "",
      instanceRank := -1 } (by decide)
  exact (h.2 nodeB (by decide)).trans rfl

/-! Helper lemmas about the dispatch fan-out. -/

theorem dispatchGo_requests (send : SendCommandInput → Except String String)
    (fleet : List InstanceInfo) (p : String) (pend : List InstanceInfo) :
    (dispatchGo send fleet p pend).requests
      = pend.map (fun i => mkSendCommandInput fleet i p) := by
  induction pend with
  | nil => rfl
  | cons i rest ih =>
    cases h : send (mkSendCommandInput fleet i p) <;>
      simp [dispatchGo, h, ih]

theorem dispatchGo_errors (send : SendCommandInput → Except String String)
    (fleet : List InstanceInfo) (p : String) (pend : List InstanceInfo) :
    (dispatchGo send fleet p pend).errorsOccurred = true
      ↔ ∃ i ∈ pend, ∃ m, send (mkSendCommandInput fleet i p) = Except.error m := by
  induction pend with
  | nil => simp [dispatchGo]
  | cons i rest ih =>
    cases h : send (mkSendCommandInput fleet i p) with
    | error m =>
      simp only [dispatchGo, h]
      constructor
      · intro _
        exact ⟨i, List.mem_cons_self _ _, m, h⟩
      · intro _
        trivial
    | ok cid =>
      simp only [dispatchGo, h]
      rw [ih]
      constructor
      · rintro ⟨j, hj, m, hm⟩
        exact ⟨j, List.mem_cons_of_mem _ hj, m, hm⟩
      · rintro ⟨j, hj, m, hm⟩
        rcases List.mem_cons.mp hj with hji | hji
        · subst hji
          rw [h] at hm
          cases hm
        · exact ⟨j, hji, m, hm⟩

theorem dispatchGo_commandIDs (send : SendCommandInput → Except String String)
    (fleet : List InstanceInfo) (p : String) (pend : List InstanceInfo) :
    (dispatchGo send fleet p pend).commandIDs
      = pend.filterMap (sendRecord send fleet p) := by
  induction pend with
  | nil => rfl
  | cons i rest ih =>
    cases h : send (mkSendCommandInput fleet i p) <;>
      simp [dispatchGo, h, ih, sendRecord, List.filterMap_cons]

theorem lookup_none_iff (k : String) (l : List (String × String)) :
    List.lookup k l = none ↔ ∀ p ∈ l, p.1 ≠ k := by
  induction l with
  | nil => simp
  | cons a l ih =>
    rcases a with ⟨a1, a2⟩
    rw [List.lookup_cons]
    by_cases hk : a1 = k
    · subst hk
      simp
    · have hbeq : (k == a1) = false := by
        simp [Ne.symm hk]
      rw [hbeq]
      simp only [List.mem_cons]
      constructor
      · intro h p hp
        rcases hp with hp | hp
        · subst hp
          exact hk
        · exact (ih.mp h) p hp
      · intro h
        exact ih.mpr (fun p hp => h p (Or.inr hp))

theorem dispatch_lookup_none (send : SendCommandInput → Except String String)
    (xs : List InstanceInfo) (p : String) (inst : InstanceInfo)
    (hmem : inst ∈ xs) (hids : (xs.map (fun x => x.instanceID)).Nodup) :
    List.lookup inst.instanceID (dispatchAll send xs p).commandIDs = none
      ↔ ∃ m, send (mkSendCommandInput xs inst p) = Except.error m := by
  rw [dispatchAll, dispatchGo_commandIDs, lookup_none_iff]
  constructor
  · intro h
    cases hs : send (mkSendCommandInput xs inst p) with
    | error m => exact ⟨m, rfl⟩
    | ok cid =>
      have hrec : (inst.instanceID, cid) ∈ xs.filterMap (sendRecord send xs p) :=
        List.mem_filterMap.mpr ⟨inst, hmem, by simp [sendRecord, hs]⟩
      exact absurd rfl (h (inst.instanceID, cid) hrec)
  · rintro ⟨m, hm⟩ q hq hkey
    rcases List.mem_filterMap.mp hq with ⟨j, hj, hrecord⟩
    cases hs : send (mkSendCommandInput xs j p) with
    | error m2 => simp [sendRecord, hs] at hrecord
    | ok cid =>
      have hq1 : q.1 = j.instanceID := by
        simp [sendRecord, hs] at hrecord
        rw [← hrecord]
      have hideq : j.instanceID = inst.instanceID := by
        rw [← hq1, hkey]
      have hji : j = inst :=
        List.inj_on_of_nodup_map hids hj hmem hideq
      subst hji
      rw [hs] at hm
      cases hm

/-- C2 (corrected): counterexample to "the remaining nodes' polling still
proceeds" — node B's submission fails while node A (the leader) is
dispatched and its invocation would poll to Success with stdout "hi", yet
the run returns the dispatch-phase error and never reaches the polling
phase, so no output is surfaced. -/
theorem c2_counterexample :
    (executeProgram (Except.ok clientC2) [nodeA, nodeB] "prog").1
      = some (Except.error "errors occurred during program execution")
    ∧ (∀ lo, (executeProgram (Except.ok clientC2) [nodeA, nodeB] "prog").1
        ≠ some (Except.ok lo))
    ∧ getCommandOutput (clientC2.invocationResponses "cid-a" "i-a")
      = some (Except.ok "hi") := by
  refine ⟨rfl, ?_, rfl⟩
  intro lo h
  have h2 : some (Except.error "errors occurred during program execution")
      = some (Except.ok lo) := h
  injection h2 with h3
  cases h3

/-- C2 (corrected, amended): dispatch is fire-and-collect — every node
gets exactly one submission attempt regardless of other nodes' failures,
the error flag is set iff some submission failed, and (for distinct node
ids) a node has no handle-map entry iff its own submission failed; but a
failure is recorded only in the shared boolean flag, not under the node's
id, and any dispatch failure makes the run return the combined dispatch
error before polling starts, so no node is polled. -/
theorem c2_dispatch_fire_and_collect (send : SendCommandInput → Except String String)
    (client : SSMClient) (xs : List InstanceInfo) (p : String) :
    (dispatchAll send xs p).requests = xs.map (fun i => mkSendCommandInput xs i p)
    ∧ ((dispatchAll send xs p).errorsOccurred = true
        ↔ ∃ i ∈ xs, ∃ m, send (mkSendCommandInput xs i p) = Except.error m)
    ∧ (∀ inst ∈ xs, (xs.map (fun x => x.instanceID)).Nodup →
        (List.lookup inst.instanceID (dispatchAll send xs p).commandIDs = none
          ↔ ∃ m, send (mkSendCommandInput xs inst p) = Except.error m))
    ∧ ((dispatchAll client.send xs p).errorsOccurred = true →
        (executeProgram (Except.ok client) xs p).1
          = some (Except.error "errors occurred during program execution")) := by
  refine ⟨dispatchGo_requests send xs p xs, dispatchGo_errors send xs p xs, ?_, ?_⟩
  · intro inst hmem hids
    exact dispatch_lookup_none send xs p inst hmem hids
  · intro h
    show executeAfterDispatch client xs (dispatchAll client.send xs p) = _
    rw [executeAfterDispatch, h]
    simp

/-- Witness for C2 amended: with node B's submission failing, both nodes
were still attempted (two requests issued), node B has no handle-map
entry, and the run returns the dispatch error. -/
theorem c2_witness :
    (dispatchAll clientC2.send [nodeA, nodeB] "prog").requests
      = [mkSendCommandInput [nodeA, nodeB] nodeA "prog",
         mkSendCommandInput [nodeA, nodeB] nodeB "prog"]
    ∧ List.lookup "i-b" (dispatchAll clientC2.send [nodeA, nodeB] "prog").commandIDs
      = none := by
  constructor
  · exact (c2_dispatch_fire_and_collect clientC2.send clientC2 [nodeA, nodeB] "prog").1
  · exact ((c2_dispatch_fire_and_collect clientC2.send clientC2 [nodeA, nodeB]
      "prog").2.2.1 nodeB (by decide) (by decide)).mpr ⟨"SubmissionError", rfl⟩

/-- C1 (corrected): counterexample to "overall success iff every node
reached Success" — both dispatches succeed and the leader polls to
Success, so the run reports overall success with the leader's output,
although node B's invocation would report a terminal Failed status (node
B is simply never polled).  The combined per-node error listing does not
exist either: a dispatch failure is reported by the fixed message proved
in the amended theorem. -/
theorem c1_counterexample :
    (executeProgram (Except.ok clientC1) [nodeA, nodeB] "prog").1
      = some (Except.ok (some "out"))
    ∧ getCommandOutput (clientC1.invocationResponses "cid-i-b" "i-b")
      = some (Except.error "command failed with status Failed: boom") :=
  ⟨rfl, rfl⟩

/-- C1 (corrected, amended): the run's result is success iff every node's
dispatch succeeded and, when a rank-0 leader exists, the leader's
invocation was polled to Success (its stdout becoming the leader output,
`none` when the fleet has no rank-0 node); the other nodes' invocation
outcomes are never polled and do not enter the result, and when any
dispatch failed the result is the fixed message "errors occurred during
program execution", which lists no node ids. -/
theorem c1_aggregate_success (client : SSMClient) (xs : List InstanceInfo)
    (p : String) (lo : Option String) :
    ((executeProgram (Except.ok client) xs p).1 = some (Except.ok lo)
      ↔ ((dispatchAll client.send xs p).errorsOccurred = false
        ∧ ((findLeader xs = none ∧ lo = none)
          ∨ (∃ leader s, findLeader xs = some leader ∧ lo = some s
              ∧ getCommandOutput (client.invocationResponses
                  ((List.lookup leader.instanceID
                    (dispatchAll client.send xs p).commandIDs).getD "")
                  leader.instanceID) = some (Except.ok s)))))
    ∧ ((dispatchAll client.send xs p).errorsOccurred = true →
        (executeProgram (Except.ok client) xs p).1
          = some (Except.error "errors occurred during program execution")) := by
  constructor
  · show executeAfterDispatch client xs (dispatchAll client.send xs p) = _ ↔ _
    cases h : (dispatchAll client.send xs p).errorsOccurred with
    | true => simp [executeAfterDispatch, h]
    | false =>
      cases hl : findLeader xs with
      | none => simp [executeAfterDispatch, h, hl, eq_comm]
      | some leader =>
        cases hp : getCommandOutput (client.invocationResponses
            ((List.lookup leader.instanceID
              (dispatchAll client.send xs p).commandIDs).getD "")
            leader.instanceID) with
        | none => simp [executeAfterDispatch, h, hl, hp]
        | some r =>
          cases r with
          | error m => simp [executeAfterDispatch, h, hl, hp]
          | ok out =>
            have heval : executeAfterDispatch client xs
                (dispatchAll client.send xs p)
                = some (Except.ok (some out)) := by
              simp [executeAfterDispatch, h, hl, hp]
            rw [heval]
            simp only [Option.some.injEq, Except.ok.injEq]
            constructor
            · intro hout
              exact ⟨trivial, Or.inr ⟨leader, out, rfl, hout.symm, hp⟩⟩
            · rintro ⟨-, hcase⟩
              rcases hcase with ⟨hnone, -⟩ | ⟨leader2, s, hl2, hlo, hpoll⟩
              · cases hnone
              · subst hl2
                rw [hp] at hpoll
                injection hpoll with h4
                injection h4 with h5
                rw [hlo, h5]
  · intro h
    show executeAfterDispatch client xs (dispatchAll client.send xs p) = _
    rw [executeAfterDispatch, h]
    simp

/-- C7 (confirmed): the leader's captured stdout is surfaced as the run's
sole output iff the leader's invocation was polled to Success in this run
— that is, iff no dispatch failed (otherwise the run aborts before
polling), a rank-0 leader exists, and polling its invocation returned the
terminal Success carrying that stdout.  In every other case — leader
polled to a failure, leader never dispatched, or no polling at all — no
leader output is surfaced, regardless of the other nodes. -/
theorem c7_leader_output (client : SSMClient) (xs : List InstanceInfo)
    (p : String) (s : String) :
    (executeProgram (Except.ok client) xs p).1 = some (Except.ok (some s))
      ↔ ((dispatchAll client.send xs p).errorsOccurred = false
        ∧ ∃ leader, findLeader xs = some leader
          ∧ getCommandOutput (client.invocationResponses
              ((List.lookup leader.instanceID
                (dispatchAll client.send xs p).commandIDs).getD "")
              leader.instanceID) = some (Except.ok s)) := by
  show executeAfterDispatch client xs (dispatchAll client.send xs p) = _ ↔ _
  cases h : (dispatchAll client.send xs p).errorsOccurred with
  | true => simp [executeAfterDispatch, h]
  | false =>
    cases hl : findLeader xs with
    | none => simp [executeAfterDispatch, h, hl]
    | some leader =>
      cases hp : getCommandOutput (client.invocationResponses
          ((List.lookup leader.instanceID
            (dispatchAll client.send xs p).commandIDs).getD "")
          leader.instanceID) with
      | none => simp [executeAfterDispatch, h, hl, hp]
      | some r =>
        cases r with
        | error m => simp [executeAfterDispatch, h, hl, hp]
        | ok out => simp [executeAfterDispatch, h, hl, hp, eq_comm]

/-- Witness for C1 amended: a concrete dispatch failure makes the run
return the fixed combined message. -/
theorem c1_witness :
    (executeProgram (Except.ok clientC2) [nodeA, nodeB] "progX").1
      = some (Except.error "errors occurred during program execution") :=
  (c1_aggregate_success clientC2 [nodeA, nodeB] "progX" none).2 (by decide)

/-! Helper lemma: distinct positions in a list with nodup ids carry
distinct ids. -/

theorem nodup_ids_getElem?_ne {sel : List InstanceInfo}
    (hids : (sel.map (fun x => x.instanceID)).Nodup)
    {i j : Nat} {a b : InstanceInfo}
    (ha : sel[i]? = some a) (hb : sel[j]? = some b) (hij : i ≠ j) :
    a.instanceID ≠ b.instanceID := by
  intro heq
  have hab : a = b :=
    List.inj_on_of_nodup_map hids (List.getElem?_mem ha) (List.getElem?_mem hb) heq
  subst hab
  have hnodup : sel.Nodup := List.Nodup.of_map _ hids
  rcases List.getElem?_eq_some_iff.mp ha with ⟨hilt, hget_i⟩
  rcases List.getElem?_eq_some_iff.mp hb with ⟨hjlt, hget_j⟩
  exact hij ((@List.Nodup.getElem_inj_iff _ sel hnodup i hilt j hjlt).mp
    (by rw [hget_i, hget_j]))

/-- C3 (confirmed): for a ranked fleet of size N (ranks assigned by
`assignRanks`) and any node in it, the environment context is the node's
own rank line, the fleet-size line, and exactly one address entry per
rank j in 0..N-1 (the entry at list position j+2 is the line for the
rank-j node); the node's own entry always selects the wildcard address
0.0.0.0 whatever its recorded addresses, and (for distinct node ids)
every other entry selects the target's private address, falling back to
its public address exactly when the private address is empty. -/
theorem c3_env_context (sel : List InstanceInfo) (i j : Nat)
    (node peer : InstanceInfo)
    (hids : (sel.map (fun x => x.instanceID)).Nodup)
    (hi : (assignRanks sel)[i]? = some node)
    (hj : (assignRanks sel)[j]? = some peer) :
    (buildEnvVars (assignRanks sel) node).length = sel.length + 2
    ∧ node.instanceRank = (i : Int)
    ∧ (buildEnvVars (assignRanks sel) node)[j + 2]? = some (addressLine peer node)
    ∧ peer.instanceRank = (j : Int)
    ∧ (j = i → selectAddress peer node = "0.0.0.0")
    ∧ (j ≠ i → selectAddress peer node
        = (if peer.privateIP = "" then peer.publicIP else peer.privateIP)) := by
  rcases Option.map_eq_some'.mp ((assignRanks_getElem? i sel).symm.trans hi)
    with ⟨a, ha, hnode⟩
  rcases Option.map_eq_some'.mp ((assignRanks_getElem? j sel).symm.trans hj)
    with ⟨b, hb, hpeer⟩
  refine ⟨?_, ?_, ?_, ?_, ?_, ?_⟩
  · simp [buildEnvVars, assignRanks_length]
  · rw [← hnode]
  · simp only [buildEnvVars, List.getElem?_cons_succ, List.getElem?_map, hj,
      Option.map_some']
  · rw [← hpeer]
  · intro hji
    subst hji
    rw [hi] at hj
    injection hj with hj
    subst hj
    simp [selectAddress]
  · intro hji
    have hne : peer.instanceID ≠ node.instanceID := by
      have hb2 : sel[j]? = some b := hb
      have ha2 : sel[i]? = some a := ha
      have := nodup_ids_getElem?_ne hids hb2 ha2 hji
      rw [← hnode, ← hpeer]
      exact this
    simp [selectAddress, hne]

/-- Witness for C3: in a concrete two-node ranked fleet with distinct
ids, the rank-1 node's entry in the rank-0 node's environment falls back
to the public address because its private address is empty. -/
theorem c3_witness :
    selectAddress wNode1R nodeA = "3.3.3.2" := by
  have h := (c3_env_context [wNode0, wNode1] 0 1 nodeA wNode1R
    (by decide) rfl rfl).2.2.2.2.2
  exact (h (by decide)).trans (by decide)

/-! Helper lemmas about the polling loop. -/

theorem dropWhile_all_skip {α : Type} {p : α → Bool} {l : List α}
    (h : ∀ x ∈ l, p x = true) : l.dropWhile p = [] := by
  induction l with
  | nil => rfl
  | cons a l ih =>
    rw [List.dropWhile_cons, if_pos (h a (List.mem_cons_self a l))]
    exact ih (fun x hx => h x (List.mem_cons_of_mem _ hx))

theorem dropWhile_head_decomp {α : Type} {p : α → Bool} {l : List α} {r : α}
    (h : (l.dropWhile p).head? = some r) :
    ∃ pre post, l = pre ++ r :: post ∧ (∀ x ∈ pre, p x = true)
      ∧ p r = false := by
  induction l with
  | nil => cases h
  | cons a l ih =>
    rw [List.dropWhile_cons] at h
    by_cases hp : p a = true
    · rw [if_pos hp] at h
      rcases ih h with ⟨pre, post, hl, hpre, hr⟩
      refine ⟨a :: pre, post, by rw [List.cons_append, hl], ?_, hr⟩
      intro x hx
      rcases List.mem_cons.mp hx with hx | hx
      · rw [hx]
        exact hp
      · exact hpre x hx
    · rw [if_neg hp] at h
      injection h with h
      subst h
      exact ⟨[], l, rfl, by simp, Bool.not_eq_true _ ▸ hp⟩

theorem getCommandOutput_eq_dropWhile (rs : List QueryResponse) :
    getCommandOutput rs
      = ((rs.dropWhile skippable).head?).map terminalResult := by
  induction rs with
  | nil => rfl
  | cons r rest ih =>
    cases r with
    | err msg =>
      cases h : isThrottling msg with
      | true => simp [getCommandOutput, h, List.dropWhile_cons, skippable, ih]
      | false =>
        simp [getCommandOutput, h, List.dropWhile_cons, skippable, terminalResult]
    | ok out =>
      cases h : (out.status == "InProgress" || out.status == "Pending") with
      | true => simp [getCommandOutput, h, List.dropWhile_cons, skippable, ih]
      | false =>
        cases hs : (out.status == "Success") with
        | true =>
          simp [getCommandOutput, h, hs, List.dropWhile_cons, skippable,
            terminalResult]
        | false =>
          simp [getCommandOutput, h, hs, List.dropWhile_cons, skippable,
            terminalResult]

/-- C4 (confirmed): during polling of one invocation, a throttling error
from the status query and a non-terminal Pending/InProgress status each
only cause a retry — a response sequence consisting solely of such
responses yields no outcome at all, in particular never Failed, however
long; the first terminal Success returns the captured stdout; and a
failure outcome arises only at a first decisive response that is either a
non-throttling query error or a terminal non-success status, the latter
reported with the captured stderr content. -/
theorem c4_polling (rs : List QueryResponse) :
    ((∀ r ∈ rs, skippable r = true) → getCommandOutput rs = none)
    ∧ (∀ msg rest, isThrottling msg = true →
        getCommandOutput (QueryResponse.err msg :: rest) = getCommandOutput rest)
    ∧ (∀ out rest, (out.status = "Pending" ∨ out.status = "InProgress") →
        getCommandOutput (QueryResponse.ok out :: rest) = getCommandOutput rest)
    ∧ (∀ out rest, out.status = "Success" →
        getCommandOutput (QueryResponse.ok out :: rest)
          = some (Except.ok (awsToString out.standardOutputContent)))
    ∧ (∀ msg, getCommandOutput rs = some (Except.error msg) →
        ∃ pre r post, rs = pre ++ r :: post
          ∧ (∀ x ∈ pre, skippable x = true)
          ∧ ((∃ m, r = QueryResponse.err m ∧ isThrottling m = false
                ∧ msg = "failed to get command invocation: " ++ m)
            ∨ (∃ out, r = QueryResponse.ok out ∧ out.status ≠ "Success"
                ∧ out.status ≠ "Pending" ∧ out.status ≠ "InProgress"
                ∧ msg = "command failed with status " ++ out.status ++ ": "
                    ++ awsToString out.standardErrorContent))) := by
  refine ⟨?_, ?_, ?_, ?_, ?_⟩
  · intro hall
    rw [getCommandOutput_eq_dropWhile, dropWhile_all_skip hall]
    rfl
  · intro msg rest hthr
    simp [getCommandOutput, hthr]
  · intro out rest hst
    rcases hst with hst | hst <;> simp [getCommandOutput, hst]
  · intro out rest hst
    simp [getCommandOutput, hst]
  · intro msg hmsg
    rw [getCommandOutput_eq_dropWhile] at hmsg
    rcases Option.map_eq_some'.mp hmsg with ⟨r, hhead, hterm⟩
    rcases dropWhile_head_decomp hhead with ⟨pre, post, hl, hpre, hskip⟩
    refine ⟨pre, r, post, hl, hpre, ?_⟩
    cases r with
    | err m =>
      simp only [skippable] at hskip
      simp only [terminalResult, Except.error.injEq] at hterm
      exact Or.inl ⟨m, rfl, hskip, hterm.symm⟩
    | ok out =>
      simp only [skippable, Bool.or_eq_false_iff, beq_eq_false_iff_ne] at hskip
      cases hsucc : (out.status == "Success") with
      | true =>
        simp [terminalResult, hsucc] at hterm
      | false =>
        have hsne : out.status ≠ "Success" := by
          intro hc
          rw [hc] at hsucc
          simp at hsucc
        simp only [terminalResult, hsucc, Bool.false_eq_true, if_false,
          Except.error.injEq] at hterm
        exact Or.inr ⟨out, rfl, hsne, hskip.2, hskip.1, hterm.symm⟩

/-- Witness for C4: a sequence of two throttling errors around a Pending
status yields no outcome — the invocation is still in flight, not Failed. -/
theorem c4_witness :
    getCommandOutput
      [QueryResponse.err "Rate exceeded: ThrottlingException",
       QueryResponse.ok { status := "Pending", standardOutputContent := none,
                          standardErrorContent := none },
       QueryResponse.err "ThrottlingException again"] = none :=
  (c4_polling
    [QueryResponse.err "Rate exceeded: ThrottlingException",
     QueryResponse.ok { status := "Pending", standardOutputContent := none,
                        standardErrorContent := none },
     QueryResponse.err "ThrottlingException again"]).1 (by decide)
